import Mathlib

/-!
Shallow embedding of `src/data/dataloader.py` (simpleNMT).

The Python module provides:
- `preprocess`: whitespace-tokenize a line and map tokens to ids via
  `word2id.index(token)` (a Python list, linear scan), bracketing with
  `<s>` / `</s>`;
- `ParallelDataset`: reads two files as line lists and encodes a pair on
  access;
- `parallel_collate_fn`: sorts the batch in place by source length
  descending (Python `list.sort` is stable, also with `reverse=True`),
  then pads source and target sequences independently to the batch
  maximum with the module-global `PAD_WORD`;
- loader factories that set the global `PAD_WORD` from the source
  vocabulary before building the framework loader (validation: sequential
  batching, `shuffle=False`, `drop_last=False`).

Python exceptions are modelled with `Except PyErr`; the module-global
`PAD_WORD` is modelled by explicit state passing (`ModuleState`); the
in-place `data.sort(...)` is modelled by returning the post-call contents
of the caller's list (`data_after`). Token ids are `Int` (the tensors hold
numbers; `PAD_WORD` starts at `-1`, so `Nat` would not do).
-/

/-- Python exception values that this module can raise: `ValueError`
(from `list.index` on a missing element, and from `max`/unpacking on empty
input) and `IndexError` (from list subscripting out of range). `LookupError`
is the Python base class of `IndexError` and `KeyError` only; `ValueError`
is not a `LookupError`. -/
inductive PyErr where
  | valueError : String → PyErr
  | indexError : String → PyErr
deriving DecidableEq

/-- Whether the Python exception is an instance of `LookupError`
(base class of `IndexError` and `KeyError`; `ValueError` is not). -/
def PyErr.isLookupError : PyErr → Bool
  | .valueError _ => false
  | .indexError _ => true

/-- Characters on which Python `str.split()` (no argument) splits. -/
def pyIsSpace (c : Char) : Bool :=
  c == ' ' || c == '\t' || c == '\n' || c == '\r' || c == '\x0b' || c == '\x0c'

/-- Helper for `pySplit`: scans the characters, accumulating the current
token in reverse. -/
def pySplitAux : List Char → List Char → List (List Char)
  | [], [] => []
  | [], cur => [cur.reverse]
  | c :: cs, cur =>
    if pyIsSpace c then
      if cur.isEmpty then pySplitAux cs []
      else cur.reverse :: pySplitAux cs []
    else pySplitAux cs (c :: cur)

/-- Python `s.split()` with no argument: split on runs of whitespace,
discarding empty tokens (so the empty line yields zero tokens). -/
def pySplit (s : String) : List String :=
  (pySplitAux s.toList []).map List.asString

/-- Helper for `listIndex`, tracking the current position. -/
def listIndexAux (x : String) : List String → Nat → Except PyErr Nat
  | [], _ => .error (.valueError x)
  | y :: ys, k => if y = x then .ok k else listIndexAux x ys (k + 1)

/-- Python `l.index(x)` on a list of strings: position of the first
occurrence, raising `ValueError` when `x` is absent. This is the linear
scan the module uses for every vocabulary lookup (`word2id.index(...)`). -/
def listIndex (l : List String) (x : String) : Except PyErr Nat :=
  listIndexAux x l 0

/-- Left-to-right effectful map over `Except`, stopping at the first
error: the semantics of the Python list comprehension
`[word2id.index(token) for token in tokens]`. -/
def mapExcept (f : α → Except PyErr β) : List α → Except PyErr (List β)
  | [] => .ok []
  | a :: as => do
    let b ← f a
    let bs ← mapExcept f as
    pure (b :: bs)

/-- `ParallelDataset.preprocess`: split the line, then build
`[<s>_id] ++ token ids ++ [</s>_id]`, in the source's evaluation order
(`<s>` lookup, then the comprehension over tokens, then `</s>`).
The unused `trg` flag of the Python signature is dropped. -/
def preprocess (sequence : String) (word2id : List String) : Except PyErr (List Int) := do
  let tokens := pySplit sequence
  let startId ← listIndex word2id "<s>"
  let ids ← mapExcept (listIndex word2id) tokens
  let stopId ← listIndex word2id "</s>"
  pure (((startId : Int) :: ids.map Int.ofNat) ++ [(stopId : Int)])

/-- The state of a constructed `ParallelDataset`: both files read fully
into memory as line lists, plus the vocabularies and the cached pad
index. File contents are modelled as the line lists the two
`open(path).read().splitlines()` calls produce. -/
structure ParallelDataset where
  src_seqs : List String
  trg_seqs : List String
  num_total_seqs : Nat
  src_word2id : List String
  trg_word2id : List String
  pad_index : Nat
deriving DecidableEq

/-- `ParallelDataset.__init__`: store both line lists, set
`num_total_seqs = len(src_seqs)`, and look up `<pad>` in the source
vocabulary (the only step that can fail). No comparison of the two line
counts is performed. -/
def ParallelDataset.init (srcLines trgLines : List String)
    (src_word2id trg_word2id : List String) : Except PyErr ParallelDataset := do
  let p ← listIndex src_word2id "<pad>"
  pure { src_seqs := srcLines, trg_seqs := trgLines,
         num_total_seqs := srcLines.length,
         src_word2id := src_word2id, trg_word2id := trg_word2id,
         pad_index := p }

/-- Python `l[i]` for a nonnegative index: `IndexError` when out of range. -/
def listGet (l : List String) (i : Nat) : Except PyErr String :=
  match l.get? i with
  | some x => .ok x
  | none => .error (.indexError "list index out of range")

/-- `ParallelDataset.__getitem__`: fetch both lines, then encode each via
`preprocess`. -/
def ParallelDataset.getItem (d : ParallelDataset) (i : Nat) :
    Except PyErr (List Int × List Int) := do
  let srcLine ← listGet d.src_seqs i
  let trgLine ← listGet d.trg_seqs i
  let s ← preprocess srcLine d.src_word2id
  let t ← preprocess trgLine d.trg_word2id
  pure (s, t)

/-- The inner `merge` of `parallel_collate_fn`: record the true lengths,
allocate a `len(sequences) × max(lengths)` grid filled with the pad
value, and copy each sequence into the left part of its row. A grid is a
list of rows; row `i` is `sequences[i]` followed by pad fill. -/
def merge (PAD_WORD : Int) (sequences : List (List Int)) :
    List (List Int) × List Nat :=
  let lengths := sequences.map List.length
  let maxLen := lengths.foldr max 0
  (sequences.map (fun seq => seq ++ List.replicate (maxLen - seq.length) PAD_WORD),
   lengths)

/-- The comparison underlying `data.sort(key=lambda x: len(x[0]), reverse=True)`:
`a` may precede `b` iff `len(b[0]) ≤ len(a[0])`. -/
def srcKeyGE (a b : List Int × List Int) : Prop :=
  b.1.length ≤ a.1.length

instance : DecidableRel srcKeyGE := fun a b => Nat.decLe b.1.length a.1.length

instance : IsTotal (List Int × List Int) srcKeyGE :=
  ⟨fun a b => Nat.le_total b.1.length a.1.length⟩

instance : IsTrans (List Int × List Int) srcKeyGE :=
  ⟨fun _ _ _ hab hbc => Nat.le_trans hbc hab⟩

/-- Everything `parallel_collate_fn` returns, plus `data_after`: the
contents of the caller's `data` list after the in-place
`data.sort(key=lambda x: len(x[0]), reverse=True)`. -/
structure CollateOut where
  src_seqs : List (List Int)
  src_lengths : List Nat
  trg_seqs : List (List Int)
  trg_lengths : List Nat
  data_after : List (List Int × List Int)
deriving DecidableEq

/-- `parallel_collate_fn`: sort the pairs by source length descending
(Python `list.sort` is stable, so `List.insertionSort` with the
`srcKeyGE` comparison computes the same list), split into sources and
targets, and merge each side independently with the current `PAD_WORD`. -/
def parallel_collate_fn (PAD_WORD : Int) (data : List (List Int × List Int)) :
    CollateOut :=
  let sorted := List.insertionSort srcKeyGE data
  let srcM := merge PAD_WORD (sorted.map Prod.fst)
  let trgM := merge PAD_WORD (sorted.map Prod.snd)
  { src_seqs := srcM.1, src_lengths := srcM.2,
    trg_seqs := trgM.1, trg_lengths := trgM.2,
    data_after := sorted }

/-- The module-level mutable state: the global `PAD_WORD`. -/
structure ModuleState where
  PAD_WORD : Int
deriving DecidableEq

/-- The state at import time: `PAD_WORD = -1`. -/
def initModuleState : ModuleState := { PAD_WORD := -1 }

/-- `parallel_collate_fn` as run in the process: it reads the global
`PAD_WORD` and writes no module state, so the state comes back unchanged. -/
def collateWithState (st : ModuleState) (data : List (List Int × List Int)) :
    CollateOut × ModuleState :=
  (parallel_collate_fn st.PAD_WORD data, st)

/-- Fuel-indexed helper for `toBatches` (the fuel is the list length, and
each step consumes at least one element when `bs ≥ 1`). -/
def toBatchesAux (bs : Nat) : Nat → List α → List (List α)
  | 0, _ => []
  | _ + 1, [] => []
  | fuel + 1, a :: l => (a :: l).take bs :: toBatchesAux bs fuel ((a :: l).drop bs)

/-- Consecutive chunks of size `bs` (last chunk possibly shorter): the
index batches a framework loader forms from a sequential sampler with
`drop_last=False`. -/
def toBatches (bs : Nat) (l : List α) : List (List α) :=
  toBatchesAux bs l.length l

/-- `get_train_parallel_loader`, state part: build the dataset, then
assign the module-global `PAD_WORD` from the source vocabulary. The
distributed sampler and loader objects are framework-side; what this
module contributes is the dataset and the write to `PAD_WORD` (the
incoming state is not read). -/
def get_train_parallel_loader (st : ModuleState)
    (srcLines trgLines src_word2id trg_word2id : List String)
    (batch_size world_size rank : Nat) :
    Except PyErr (ParallelDataset × ModuleState) := do
  let ds ← ParallelDataset.init srcLines trgLines src_word2id trg_word2id
  let p ← listIndex src_word2id "<pad>"
  pure (ds, { PAD_WORD := (p : Int) })

/-- `get_valid_parallel_loader`: build the dataset, assign the global
`PAD_WORD` from the source vocabulary, and return the sequence of index
batches the loader will draw (`shuffle=False`, `drop_last=False`:
consecutive chunks of `batch_size` in original index order). -/
def get_valid_parallel_loader (st : ModuleState)
    (srcLines trgLines src_word2id trg_word2id : List String)
    (batch_size : Nat) :
    Except PyErr (List (List Nat) × ParallelDataset × ModuleState) := do
  let ds ← ParallelDataset.init srcLines trgLines src_word2id trg_word2id
  let p ← listIndex src_word2id "<pad>"
  pure (toBatches batch_size (List.range ds.num_total_seqs), ds,
        { PAD_WORD := (p : Int) })

/-- One driven batch of a loader: fetch every index through
`ParallelDataset.getItem` (any failure aborts the whole batch), then
collate with the current global `PAD_WORD`. -/
def loadBatch (st : ModuleState) (d : ParallelDataset) (idxs : List Nat) :
    Except PyErr CollateOut := do
  let pairs ← mapExcept d.getItem idxs
  pure (parallel_collate_fn st.PAD_WORD pairs)

/-- The six-word vocabulary of the specification scenario:
`<pad>` ↦ 0, `<s>` ↦ 1, `</s>` ↦ 2, `i` ↦ 3, `am` ↦ 4, `fine` ↦ 5. -/
def vocab6 : List String := ["<pad>", "<s>", "</s>", "i", "am", "fine"]

/-- Five lines used for the concrete validation-loader scenario. -/
def lines5 : List String := ["l1", "l2", "l3", "l4", "l5"]

/-- The dataset built from `lines5` with `vocab6` on both sides. -/
def ds5 : ParallelDataset :=
  { src_seqs := lines5, trg_seqs := lines5, num_total_seqs := 5,
    src_word2id := vocab6, trg_word2id := vocab6, pad_index := 0 }

/-- The validation loader output for `lines5` with `batch_size = 2`. -/
def validOut5 : List (List Nat) × ParallelDataset × ModuleState :=
  ([[0, 1], [2, 3], [4]], ds5, { PAD_WORD := 0 })

/-- A one-pair dataset whose source line contains the out-of-vocabulary
token `hungry`. -/
def dsOOV : ParallelDataset :=
  { src_seqs := ["i am hungry"], trg_seqs := ["i am fine"],
    num_total_seqs := 1, src_word2id := vocab6, trg_word2id := vocab6,
    pad_index := 0 }

/-- The dataset obtained from a one-line source file and an empty target
file: construction succeeds although the line counts differ. -/
def dsMismatch : ParallelDataset :=
  { src_seqs := ["i am fine"], trg_seqs := [], num_total_seqs := 1,
    src_word2id := vocab6, trg_word2id := vocab6, pad_index := 0 }

/-- Two pairs used to exercise a padded position concretely. -/
def dataC8 : List (List Int × List Int) := [([5], [6]), ([7, 8], [9])]

/-- The train-loader output for `lines5` with `world_size = 1`, `rank = 0`. -/
def trainOut5 : ParallelDataset × ModuleState := (ds5, { PAD_WORD := 0 })

example : pySplit "i am fine" = ["i", "am", "fine"] := by rfl

example : preprocess "i am fine" vocab6 = .ok [1, 3, 4, 5, 2] := by rfl

example : preprocess "" vocab6 = .ok [1, 2] := by rfl

/-! Helper lemmas about lists, `merge` and the sort. -/

/-- `getD` through a `map`, at an in-range position. -/
lemma getD_map_of_lt (f : α → β) (l : List α) (i : Nat) (hi : i < l.length)
    (dα : α) (dβ : β) : (l.map f).getD i dβ = f (l.getD i dα) := by
  rw [List.getD_eq_getElem _ _ (by simpa using hi), List.getD_eq_getElem _ _ hi]
  simp

/-- Every member of a list of naturals is bounded by the `foldr max 0`. -/
lemma le_foldr_max_of_mem {a : Nat} {l : List Nat} (h : a ∈ l) :
    a ≤ l.foldr max 0 := by
  induction l with
  | nil => cases h
  | cons b bs ih =>
    rcases List.mem_cons.mp h with rfl | h
    · exact Nat.le_max_left _ _
    · exact Nat.le_trans (ih h) (Nat.le_max_right _ _)

/-- Length of a padded row. -/
lemma padRow_length {s : List Int} {M : Nat} (pad : Int) (h : s.length ≤ M) :
    (s ++ List.replicate (M - s.length) pad).length = M := by
  simp only [List.length_append, List.length_replicate]
  omega

/-- Inside the true length, a padded row agrees with the sequence. -/
lemma padRow_getD_lt {s : List Int} {M : Nat} {pad : Int} {j : Nat}
    (h : j < s.length) :
    (s ++ List.replicate (M - s.length) pad).getD j 0 = s.getD j 0 :=
  List.getD_append _ _ _ _ h

/-- Beyond the true length (and inside the grid width), a padded row is pad. -/
lemma padRow_getD_pad {s : List Int} {M : Nat} {pad : Int} {j : Nat}
    (h1 : s.length ≤ j) (h2 : j < M) :
    (s ++ List.replicate (M - s.length) pad).getD j 0 = pad := by
  rw [List.getD_append_right _ _ _ _ h1]
  have hb : j - s.length < (List.replicate (M - s.length) pad).length := by
    simp only [List.length_replicate]; omega
  rw [List.getD_eq_getElem _ _ hb]
  simp

/-- Full positional description of one `merge` side: row count, length
array, per-row bound by the batch maximum, row width, copied region and
padded region. -/
lemma merge_side_spec (pad : Int) (seqs : List (List Int)) (i : Nat)
    (hi : i < seqs.length) :
    (merge pad seqs).1.length = seqs.length ∧
    (merge pad seqs).2.length = seqs.length ∧
    (merge pad seqs).2.getD i 0 = (seqs.getD i []).length ∧
    (merge pad seqs).2.getD i 0 ≤ (merge pad seqs).2.foldr max 0 ∧
    ((merge pad seqs).1.getD i []).length = (merge pad seqs).2.foldr max 0 ∧
    (∀ j, j < (merge pad seqs).2.getD i 0 →
      ((merge pad seqs).1.getD i []).getD j 0 = (seqs.getD i []).getD j 0) ∧
    (∀ j, (merge pad seqs).2.getD i 0 ≤ j → j < (merge pad seqs).2.foldr max 0 →
      ((merge pad seqs).1.getD i []).getD j 0 = pad) := by
  have h2 : (merge pad seqs).2 = seqs.map List.length := rfl
  have h1 : (merge pad seqs).1 =
      seqs.map (fun s =>
        s ++ List.replicate (((seqs.map List.length).foldr max 0) - s.length) pad) := rfl
  have hLi : (seqs.map List.length).getD i 0 = (seqs.getD i []).length :=
    getD_map_of_lt List.length seqs i hi [] 0
  have hmem : (seqs.getD i []).length ∈ seqs.map List.length := by
    rw [← hLi, List.getD_eq_getElem _ _ (by simpa using hi)]
    exact List.getElem_mem _
  have hle : (seqs.getD i []).length ≤ (seqs.map List.length).foldr max 0 :=
    le_foldr_max_of_mem hmem
  have hrow : (merge pad seqs).1.getD i [] =
      seqs.getD i [] ++
        List.replicate (((seqs.map List.length).foldr max 0) -
          (seqs.getD i []).length) pad := by
    rw [h1]
    exact getD_map_of_lt _ seqs i hi [] []
  refine ⟨by rw [h1]; simp, by rw [h2]; simp, by rw [h2]; exact hLi, ?_, ?_, ?_, ?_⟩
  · rw [h2, hLi]; exact hle
  · rw [hrow, h2]; exact padRow_length pad hle
  · intro j hj
    rw [h2, hLi] at hj
    rw [hrow]
    exact padRow_getD_lt hj
  · intro j hj1 hj2
    rw [h2, hLi] at hj1
    rw [h2] at hj2
    rw [hrow]
    exact padRow_getD_pad hj1 hj2

/-- The sorted list inside `parallel_collate_fn` is a permutation of the
input with the same length. -/
lemma data_after_perm (pad : Int) (data : List (List Int × List Int)) :
    (parallel_collate_fn pad data).data_after.Perm data :=
  List.perm_insertionSort srcKeyGE data

/-- The sorted list inside `parallel_collate_fn` is sorted by `srcKeyGE`. -/
lemma data_after_sorted (pad : Int) (data : List (List Int × List Int)) :
    List.Sorted srcKeyGE (parallel_collate_fn pad data).data_after :=
  List.sorted_insertionSort srcKeyGE data

lemma data_after_length (pad : Int) (data : List (List Int × List Int)) :
    (parallel_collate_fn pad data).data_after.length = data.length :=
  (data_after_perm pad data).length_eq

/-! The claim theorems. -/

/-- C1: a batch produced by `parallel_collate_fn` has one source row and
one target row per input pair; each length array entry is bounded by its
grid's column count (the batch maximum length, recomputed independently
for source and target); every grid row has exactly that column count;
positions beyond the row's true length hold the pad id, and positions
before it hold that row's sequence ids. -/
theorem collate_padding_spec (pad : Int) (data : List (List Int × List Int))
    (hne : data ≠ []) :
    (parallel_collate_fn pad data).src_seqs.length = data.length ∧
    (parallel_collate_fn pad data).trg_seqs.length = data.length ∧
    (parallel_collate_fn pad data).src_lengths.length = data.length ∧
    (parallel_collate_fn pad data).trg_lengths.length = data.length ∧
    (∀ i, i < data.length →
      (parallel_collate_fn pad data).src_lengths.getD i 0 ≤
        (parallel_collate_fn pad data).src_lengths.foldr max 0 ∧
      ((parallel_collate_fn pad data).src_seqs.getD i []).length =
        (parallel_collate_fn pad data).src_lengths.foldr max 0 ∧
      (∀ j, j < (parallel_collate_fn pad data).src_lengths.getD i 0 →
        ((parallel_collate_fn pad data).src_seqs.getD i []).getD j 0 =
          ((parallel_collate_fn pad data).data_after.getD i ([], [])).1.getD j 0) ∧
      (∀ j, (parallel_collate_fn pad data).src_lengths.getD i 0 ≤ j →
        j < (parallel_collate_fn pad data).src_lengths.foldr max 0 →
        ((parallel_collate_fn pad data).src_seqs.getD i []).getD j 0 = pad)) ∧
    (∀ i, i < data.length →
      (parallel_collate_fn pad data).trg_lengths.getD i 0 ≤
        (parallel_collate_fn pad data).trg_lengths.foldr max 0 ∧
      ((parallel_collate_fn pad data).trg_seqs.getD i []).length =
        (parallel_collate_fn pad data).trg_lengths.foldr max 0 ∧
      (∀ j, j < (parallel_collate_fn pad data).trg_lengths.getD i 0 →
        ((parallel_collate_fn pad data).trg_seqs.getD i []).getD j 0 =
          ((parallel_collate_fn pad data).data_after.getD i ([], [])).2.getD j 0) ∧
      (∀ j, (parallel_collate_fn pad data).trg_lengths.getD i 0 ≤ j →
        j < (parallel_collate_fn pad data).trg_lengths.foldr max 0 →
        ((parallel_collate_fn pad data).trg_seqs.getD i []).getD j 0 = pad)) := by
  have hlen := data_after_length pad data
  have hsrc : (parallel_collate_fn pad data).src_seqs =
      (merge pad ((parallel_collate_fn pad data).data_after.map Prod.fst)).1 := rfl
  have htrg : (parallel_collate_fn pad data).trg_seqs =
      (merge pad ((parallel_collate_fn pad data).data_after.map Prod.snd)).1 := rfl
  have hsl : (parallel_collate_fn pad data).src_lengths =
      (merge pad ((parallel_collate_fn pad data).data_after.map Prod.fst)).2 := rfl
  have htl : (parallel_collate_fn pad data).trg_lengths =
      (merge pad ((parallel_collate_fn pad data).data_after.map Prod.snd)).2 := rfl
  refine ⟨?_, ?_, ?_, ?_, ?_, ?_⟩
  · simp [hsrc, merge, hlen]
  · simp [htrg, merge, hlen]
  · simp [hsl, merge, hlen]
  · simp [htl, merge, hlen]
  · intro i hi
    have hi' : i < ((parallel_collate_fn pad data).data_after.map Prod.fst).length := by
      simpa [hlen] using hi
    obtain ⟨_, _, _, h4, h5, h6, h7⟩ :=
      merge_side_spec pad ((parallel_collate_fn pad data).data_after.map Prod.fst) i hi'
    refine ⟨h4, h5, ?_, h7⟩
    intro j hj
    have h8 := h6 j hj
    rw [getD_map_of_lt Prod.fst _ i (by simpa [hlen] using hi) ([], []) []] at h8
    exact h8
  · intro i hi
    have hi' : i < ((parallel_collate_fn pad data).data_after.map Prod.snd).length := by
      simpa [hlen] using hi
    obtain ⟨_, _, _, h4, h5, h6, h7⟩ :=
      merge_side_spec pad ((parallel_collate_fn pad data).data_after.map Prod.snd) i hi'
    refine ⟨h4, h5, ?_, h7⟩
    intro j hj
    have h8 := h6 j hj
    rw [getD_map_of_lt Prod.snd _ i (by simpa [hlen] using hi) ([], []) []] at h8
    exact h8

/-- Witness for C1 at the concrete two-pair batch `dataC8` with pad 0:
both grids have two rows, and the padded position `[1, 1]` of the source
grid (row of true length 1, width 2) holds the pad id. -/
theorem collate_padding_spec_witness :
    (parallel_collate_fn 0 dataC8).src_seqs.length = dataC8.length ∧
    ((parallel_collate_fn 0 dataC8).src_seqs.getD 1 []).getD 1 0 = 0 := by
  have h := collate_padding_spec 0 dataC8 (by decide)
  exact ⟨h.1, (h.2.2.2.2.1 1 (by decide)).2.2.2 1 (by decide) (by decide)⟩

/-- C2: in every batch produced from a non-empty input, the true source
lengths are non-increasing along the rows: `src_lengths[j] ≤ src_lengths[i]`
for `i < j`. -/
theorem collate_sorted_by_src_length_desc (pad : Int)
    (data : List (List Int × List Int)) (i j : Nat) (hne : data ≠ [])
    (hij : i < j) (hj : j < data.length) :
    (parallel_collate_fn pad data).src_lengths.getD j 0 ≤
      (parallel_collate_fn pad data).src_lengths.getD i 0 := by
  have hlen := data_after_length pad data
  have hs := data_after_sorted pad data
  have hj' : j < (parallel_collate_fn pad data).data_after.length := by omega
  have hi' : i < (parallel_collate_fn pad data).data_after.length := by omega
  have hgi : (parallel_collate_fn pad data).src_lengths.getD i 0 =
      ((parallel_collate_fn pad data).data_after.getD i ([], [])).1.length := by
    have e1 : (parallel_collate_fn pad data).src_lengths =
        ((parallel_collate_fn pad data).data_after.map Prod.fst).map List.length := rfl
    rw [e1, getD_map_of_lt List.length _ i (by simpa using hi') [] 0,
      getD_map_of_lt Prod.fst _ i hi' ([], []) []]
  have hgj : (parallel_collate_fn pad data).src_lengths.getD j 0 =
      ((parallel_collate_fn pad data).data_after.getD j ([], [])).1.length := by
    have e1 : (parallel_collate_fn pad data).src_lengths =
        ((parallel_collate_fn pad data).data_after.map Prod.fst).map List.length := rfl
    rw [e1, getD_map_of_lt List.length _ j (by simpa using hj') [] 0,
      getD_map_of_lt Prod.fst _ j hj' ([], []) []]
  rw [hgi, hgj, List.getD_eq_getElem _ _ hi', List.getD_eq_getElem _ _ hj']
  have := hs.rel_get_of_lt (a := ⟨i, hi'⟩) (b := ⟨j, hj'⟩) hij
  simpa [srcKeyGE, List.get_eq_getElem] using this

/-! Lemmas about the `Except` plumbing of `preprocess` and batch loading. -/

/-- `preprocess` written as an explicit bind chain (the do-block unfolded). -/
lemma preprocess_eq (line : String) (w : List String) :
    preprocess line w =
      (listIndex w "<s>").bind fun startId =>
        (mapExcept (listIndex w) (pySplit line)).bind fun ids =>
          (listIndex w "</s>").bind fun stopId =>
            .ok (((startId : Int) :: ids.map Int.ofNat) ++ [(stopId : Int)]) :=
  rfl

/-- A successful `mapExcept` preserves the length. -/
lemma mapExcept_ok_length (f : α → Except PyErr β) :
    ∀ (l : List α) (bs : List β), mapExcept f l = .ok bs → bs.length = l.length := by
  intro l
  induction l with
  | nil =>
    intro bs h
    simp only [mapExcept] at h
    cases h
    rfl
  | cons a as ih =>
    intro bs h
    cases hfa : f a with
    | error e => simp [mapExcept, hfa, bind, Except.bind] at h
    | ok b =>
      cases hrest : mapExcept f as with
      | error e => simp [mapExcept, hfa, hrest, bind, Except.bind] at h
      | ok tail =>
        simp only [mapExcept, hfa, hrest, bind, Except.bind, pure,
          Except.pure, Except.ok.injEq] at h
        rw [← h]
        simp [ih tail hrest]

/-- The only error `listIndexAux` can produce is `ValueError` on the
searched element. -/
lemma listIndexAux_error (x : String) :
    ∀ (l : List String) (k : Nat) (e : PyErr),
      listIndexAux x l k = .error e → e = .valueError x := by
  intro l
  induction l with
  | nil =>
    intro k e h
    simp only [listIndexAux] at h
    cases h
    rfl
  | cons y ys ih =>
    intro k e h
    by_cases hy : y = x
    · simp [listIndexAux, hy] at h
    · rw [listIndexAux, if_neg hy] at h
      exact ih _ _ h

/-- Python `list.index` raises `ValueError` (on the searched element)
whenever it fails. -/
lemma listIndex_error (w : List String) (x : String) (e : PyErr)
    (h : listIndex w x = .error e) : e = .valueError x :=
  listIndexAux_error x w 0 e h

/-- `list.index` either succeeds or raises `ValueError` on its argument. -/
lemma listIndex_cases (w : List String) (x : String) :
    (∃ n, listIndex w x = .ok n) ∨ listIndex w x = .error (.valueError x) := by
  cases h : listIndex w x with
  | ok n => exact .inl ⟨n, rfl⟩
  | error e =>
    right
    rw [listIndex_error w x e h]

/-- Any error of a `mapExcept` over vocabulary lookups is a `ValueError`. -/
lemma mapExcept_listIndex_error (w : List String) :
    ∀ (toks : List String) (e : PyErr),
      mapExcept (listIndex w) toks = .error e → ∃ t, e = .valueError t := by
  intro toks
  induction toks with
  | nil => intro e h; simp [mapExcept] at h
  | cons a as ih =>
    intro e h
    cases hfa : listIndex w a with
    | error e2 =>
      simp only [mapExcept, hfa, bind, Except.bind, Except.error.injEq] at h
      subst h
      exact ⟨a, listIndex_error w a e2 hfa⟩
    | ok b =>
      cases hrest : mapExcept (listIndex w) as with
      | error e2 =>
        simp only [mapExcept, hfa, hrest, bind, Except.bind, Except.error.injEq] at h
        subst h
        exact ih e2 hrest
      | ok bs =>
        simp [mapExcept, hfa, hrest, bind, Except.bind, pure, Except.pure] at h

/-- A single failing element makes the whole `mapExcept` fail. -/
lemma mapExcept_error_of_mem (f : α → Except PyErr β) :
    ∀ (l : List α) (a : α), a ∈ l → (∀ b, f a ≠ .ok b) →
      ∃ e, mapExcept f l = .error e := by
  intro l
  induction l with
  | nil => intro a ha; cases ha
  | cons x xs ih =>
    intro a ha hf
    cases hfx : f x with
    | error e => exact ⟨e, by simp [mapExcept, hfx, bind, Except.bind]⟩
    | ok b =>
      rcases List.mem_cons.mp ha with rfl | ha2
      · exact absurd hfx (hf b)
      · obtain ⟨e, he⟩ := ih a ha2 hf
        exact ⟨e, by simp [mapExcept, hfx, he, bind, Except.bind]⟩

/-! Stability of the batch sort. -/

/-- Inserting `a` moves it past exactly the strictly longer rows, so the
filter by any fixed source length commutes with the insertion. -/
lemma filter_orderedInsert_key (k : Nat) (a : List Int × List Int) :
    ∀ s : List (List Int × List Int),
      (List.orderedInsert srcKeyGE a s).filter (fun p => p.1.length == k) =
        if a.1.length == k then
          a :: s.filter (fun p => p.1.length == k)
        else s.filter (fun p => p.1.length == k) := by
  intro s
  induction s with
  | nil => by_cases h : a.1.length = k <;> simp [List.orderedInsert, h]
  | cons y ys ih =>
    by_cases hr : srcKeyGE a y
    · rw [List.orderedInsert, if_pos hr]
      by_cases h : a.1.length = k <;> simp [List.filter_cons, h]
    · rw [List.orderedInsert, if_neg hr]
      by_cases h : a.1.length = k
      · have hy : ¬ (y.1.length = k) := by
          simp only [srcKeyGE, not_le] at hr
          omega
        simp [List.filter_cons, ih, h, hy]
      · by_cases hy : y.1.length = k <;> simp [List.filter_cons, ih, h, hy]

/-- Stability of the insertion sort under the source-length key: the rows
of any fixed source length keep their original relative order. -/
lemma filter_insertionSort_key (k : Nat) :
    ∀ data : List (List Int × List Int),
      (List.insertionSort srcKeyGE data).filter (fun p => p.1.length == k) =
        data.filter (fun p => p.1.length == k) := by
  intro data
  induction data with
  | nil => rfl
  | cons a l ih =>
    show (List.orderedInsert srcKeyGE a
      (List.insertionSort srcKeyGE l)).filter (fun p => p.1.length == k) = _
    rw [filter_orderedInsert_key]
    by_cases h : a.1.length = k <;> simp [List.filter_cons, h, ih]

/-- Witness for C2 at the concrete batch `dataC8`: the second row's true
source length is bounded by the first row's. -/
theorem collate_sorted_by_src_length_desc_witness :
    (parallel_collate_fn 0 dataC8).src_lengths.getD 1 0 ≤
      (parallel_collate_fn 0 dataC8).src_lengths.getD 0 0 :=
  collate_sorted_by_src_length_desc 0 dataC8 0 1 (by decide) (by decide)
    (by decide)

/-- C3: when every token of the line (and the two markers) is in the
vocabulary, `preprocess` returns exactly the start id, the token ids in
order, and the end id, so the output length is the token count plus two,
with first/last elements the `<s>`/`</s>` ids. -/
theorem preprocess_brackets_and_length (line : String) (word2id : List String)
    (s e : Nat) (ids : List Nat)
    (hs : listIndex word2id "<s>" = .ok s)
    (he : listIndex word2id "</s>" = .ok e)
    (hids : mapExcept (listIndex word2id) (pySplit line) = .ok ids) :
    preprocess line word2id =
      .ok (((s : Int) :: ids.map Int.ofNat) ++ [(e : Int)]) ∧
    (((s : Int) :: ids.map Int.ofNat) ++ [(e : Int)]).length =
      (pySplit line).length + 2 ∧
    (((s : Int) :: ids.map Int.ofNat) ++ [(e : Int)]).getD 0 0 = (s : Int) ∧
    (((s : Int) :: ids.map Int.ofNat) ++ [(e : Int)]).getLast? =
      some (e : Int) := by
  have hl := mapExcept_ok_length (listIndex word2id) (pySplit line) ids hids
  refine ⟨?_, ?_, ?_, ?_⟩
  · rw [preprocess_eq, hs, hids, he]
    rfl
  · rw [List.length_append, List.length_cons, List.length_map, hl]
    rfl
  · rfl
  · rw [List.getLast?_concat]

/-- Witness for C3: the specification scenario, `"i am fine"` under
`vocab6` encodes to `[1, 3, 4, 5, 2]`, and the empty line to `[1, 2]`. -/
theorem preprocess_brackets_and_length_witness :
    preprocess "i am fine" vocab6 = Except.ok [1, 3, 4, 5, 2] ∧
    preprocess "" vocab6 = Except.ok [1, 2] := by
  constructor
  · exact (preprocess_brackets_and_length "i am fine" vocab6 1 2 [3, 4, 5]
      rfl rfl rfl).1
  · exact (preprocess_brackets_and_length "" vocab6 1 2 [] rfl rfl rfl).1

/-- C4: row `i` of the produced batch, cut back to its true lengths, is
the `i`-th element of the single sorted list, and that element is one of
the original input pairs: target rows follow exactly the source rows'
(sorted) order and pairs are never split. -/
theorem collate_rows_share_sorted_order (pad : Int)
    (data : List (List Int × List Int)) (i : Nat) (hi : i < data.length) :
    (((parallel_collate_fn pad data).src_seqs.getD i []).take
        ((parallel_collate_fn pad data).src_lengths.getD i 0),
      ((parallel_collate_fn pad data).trg_seqs.getD i []).take
        ((parallel_collate_fn pad data).trg_lengths.getD i 0)) =
      (parallel_collate_fn pad data).data_after.getD i ([], []) ∧
    (parallel_collate_fn pad data).data_after.getD i ([], []) ∈ data := by
  have hlen := data_after_length pad data
  have hi' : i < (parallel_collate_fn pad data).data_after.length := by omega
  constructor
  · have hsrcrow : (parallel_collate_fn pad data).src_seqs.getD i [] =
        ((parallel_collate_fn pad data).data_after.getD i ([], [])).1 ++
          List.replicate
            ((((parallel_collate_fn pad data).data_after.map Prod.fst).map
                List.length).foldr max 0 -
              ((parallel_collate_fn pad data).data_after.getD i ([], [])).1.length)
            pad := by
      have e1 : (parallel_collate_fn pad data).src_seqs =
          ((parallel_collate_fn pad data).data_after.map Prod.fst).map
            (fun sq => sq ++
              List.replicate
                ((((parallel_collate_fn pad data).data_after.map Prod.fst).map
                    List.length).foldr max 0 - sq.length) pad) := rfl
      rw [e1, getD_map_of_lt _ _ i (by simpa using hi') [] [],
        getD_map_of_lt Prod.fst _ i hi' ([], []) []]
    have htrgrow : (parallel_collate_fn pad data).trg_seqs.getD i [] =
        ((parallel_collate_fn pad data).data_after.getD i ([], [])).2 ++
          List.replicate
            ((((parallel_collate_fn pad data).data_after.map Prod.snd).map
                List.length).foldr max 0 -
              ((parallel_collate_fn pad data).data_after.getD i ([], [])).2.length)
            pad := by
      have e1 : (parallel_collate_fn pad data).trg_seqs =
          ((parallel_collate_fn pad data).data_after.map Prod.snd).map
            (fun sq => sq ++
              List.replicate
                ((((parallel_collate_fn pad data).data_after.map Prod.snd).map
                    List.length).foldr max 0 - sq.length) pad) := rfl
      rw [e1, getD_map_of_lt _ _ i (by simpa using hi') [] [],
        getD_map_of_lt Prod.snd _ i hi' ([], []) []]
    have hsl : (parallel_collate_fn pad data).src_lengths.getD i 0 =
        ((parallel_collate_fn pad data).data_after.getD i ([], [])).1.length := by
      have e1 : (parallel_collate_fn pad data).src_lengths =
          ((parallel_collate_fn pad data).data_after.map Prod.fst).map
            List.length := rfl
      rw [e1, getD_map_of_lt List.length _ i (by simpa using hi') [] 0,
        getD_map_of_lt Prod.fst _ i hi' ([], []) []]
    have htl : (parallel_collate_fn pad data).trg_lengths.getD i 0 =
        ((parallel_collate_fn pad data).data_after.getD i ([], [])).2.length := by
      have e1 : (parallel_collate_fn pad data).trg_lengths =
          ((parallel_collate_fn pad data).data_after.map Prod.snd).map
            List.length := rfl
      rw [e1, getD_map_of_lt List.length _ i (by simpa using hi') [] 0,
        getD_map_of_lt Prod.snd _ i hi' ([], []) []]
    rw [hsrcrow, htrgrow, hsl, htl, List.take_left' rfl, List.take_left' rfl]
  · rw [List.getD_eq_getElem _ _ hi']
    exact (data_after_perm pad data).subset (List.getElem_mem _)

/-- Witness for C4 at the concrete batch `dataC8`, row 0. -/
theorem collate_rows_share_sorted_order_witness :
    (((parallel_collate_fn 0 dataC8).src_seqs.getD 0 []).take
        ((parallel_collate_fn 0 dataC8).src_lengths.getD 0 0),
      ((parallel_collate_fn 0 dataC8).trg_seqs.getD 0 []).take
        ((parallel_collate_fn 0 dataC8).trg_lengths.getD 0 0)) =
      (parallel_collate_fn 0 dataC8).data_after.getD 0 ([], []) ∧
    (parallel_collate_fn 0 dataC8).data_after.getD 0 ([], []) ∈ dataC8 :=
  collate_rows_share_sorted_order 0 dataC8 0 (by decide)

/-- C9: the collate call sorts the caller's list in place: afterwards the
list is a permutation of its old contents, sorted by source length
descending; the module state (the `PAD_WORD` global, which the call only
reads) is untouched. -/
theorem collate_sorts_input_in_place (st : ModuleState)
    (data : List (List Int × List Int)) :
    (collateWithState st data).1.data_after.Perm data ∧
    List.Sorted srcKeyGE (collateWithState st data).1.data_after ∧
    (collateWithState st data).2 = st :=
  ⟨data_after_perm st.PAD_WORD data, data_after_sorted st.PAD_WORD data, rfl⟩

/-- C10: the descending sort is stable: restricted to any fixed source
length `k`, the sorted list equals the input list, so equal-length pairs
keep their original relative order. -/
theorem collate_sort_stable (pad : Int) (data : List (List Int × List Int))
    (k : Nat) :
    (parallel_collate_fn pad data).data_after.filter (fun p => p.1.length == k) =
      data.filter (fun p => p.1.length == k) :=
  filter_insertionSort_key k data

/-! Sequential batching of the validation loader. -/

/-- Concatenating the chunks gives back the original list (fuel form). -/
lemma toBatchesAux_join {α : Type} (bs : Nat) (hb : bs ≠ 0) :
    ∀ (fuel : Nat) (l : List α), l.length ≤ fuel →
      (toBatchesAux bs fuel l).flatten = l := by
  intro fuel
  induction fuel with
  | zero =>
    intro l hl
    have h0 : l = [] := List.eq_nil_of_length_eq_zero (Nat.le_zero.mp hl)
    subst h0
    rfl
  | succ n ih =>
    intro l hl
    cases l with
    | nil => rfl
    | cons a as =>
      show ((a :: as).take bs :: toBatchesAux bs n ((a :: as).drop bs)).flatten = a :: as
      rw [List.flatten_cons, ih ((a :: as).drop bs) ?_, List.take_append_drop]
      simp only [List.length_drop, List.length_cons]
      simp only [List.length_cons] at hl
      omega

/-- Concatenating the chunks gives back the original list. -/
lemma toBatches_join {α : Type} (bs : Nat) (hb : bs ≠ 0) (l : List α) :
    (toBatches bs l).flatten = l :=
  toBatchesAux_join bs hb l.length l (Nat.le_refl _)

/-- C7: a successfully built validation loader draws consecutive index
chunks of size `batch_size` (last one possibly shorter), covering the
dataset indices `0 .. n-1` in their original order with no shuffling. -/
theorem valid_loader_yields_sequential_batches (st : ModuleState)
    (srcLines trgLines sw tw : List String) (bs : Nat)
    (out : List (List Nat) × ParallelDataset × ModuleState)
    (hbs : bs ≠ 0)
    (h : get_valid_parallel_loader st srcLines trgLines sw tw bs = Except.ok out) :
    out.1 = toBatches bs (List.range srcLines.length) ∧
    out.1.flatten = List.range srcLines.length := by
  cases hp : listIndex sw "<pad>" with
  | error e =>
    simp [get_valid_parallel_loader, ParallelDataset.init, hp, bind,
      Except.bind] at h
  | ok p =>
    simp only [get_valid_parallel_loader, ParallelDataset.init, hp, bind,
      Except.bind, pure, Except.pure, Except.ok.injEq] at h
    subst h
    exact ⟨rfl, toBatches_join bs hbs _⟩

/-- Witness for C7: `batch_size = 2` over the 5-example dataset yields the
three index batches `[0,1]`, `[2,3]`, `[4]` — sizes 2, 2, 1 — covering
`0..4` in order. -/
theorem valid_loader_yields_sequential_batches_witness :
    get_valid_parallel_loader initModuleState lines5 lines5 vocab6 vocab6 2 =
      Except.ok validOut5 ∧
    validOut5.1 = [[0, 1], [2, 3], [4]] ∧
    validOut5.1.flatten = List.range 5 := by
  refine ⟨rfl, rfl, ?_⟩
  exact (valid_loader_yields_sequential_batches initModuleState lines5 lines5
    vocab6 vocab6 2 validOut5 (by decide) rfl).2

/-! The out-of-vocabulary failure mode. -/

/-- Counterexample to C5 as stated: an out-of-vocabulary token makes
`preprocess` raise `ValueError` (from `list.index`), and `ValueError` is
not a `LookupError` in Python's exception hierarchy. -/
theorem preprocess_oov_raises_valueError_not_lookupError :
    preprocess "i am hungry" vocab6 = Except.error (PyErr.valueError "hungry") ∧
    PyErr.isLookupError (PyErr.valueError "hungry") = false :=
  ⟨rfl, rfl⟩

/-- C5 (amended): a line with an out-of-vocabulary token makes
`preprocess` fail with a `ValueError`; every error `preprocess` can raise
is a `ValueError` (never a `LookupError`); and a failing item aborts its
whole batch: `loadBatch` returns an error, with no recovery of the
remaining items. -/
theorem preprocess_oov_fails_and_aborts_batch :
    (∀ (word2id : List String) (line tok : String),
        tok ∈ pySplit line → (∀ n, listIndex word2id tok ≠ Except.ok n) →
        ∃ t, preprocess line word2id = Except.error (PyErr.valueError t)) ∧
    (∀ (line : String) (word2id : List String) (err : PyErr),
        preprocess line word2id = Except.error err → err.isLookupError = false) ∧
    (∀ (st : ModuleState) (d : ParallelDataset) (idxs : List Nat) (i : Nat)
        (e : PyErr), i ∈ idxs → d.getItem i = Except.error e →
        ∃ e2, loadBatch st d idxs = Except.error e2) := by
  refine ⟨?_, ?_, ?_⟩
  · intro w line tok htok hfail
    rcases listIndex_cases w "<s>" with ⟨n, hn⟩ | hserr
    · obtain ⟨e0, he0⟩ := mapExcept_error_of_mem (listIndex w) (pySplit line)
        tok htok hfail
      obtain ⟨t, ht⟩ := mapExcept_listIndex_error w (pySplit line) e0 he0
      refine ⟨t, ?_⟩
      rw [preprocess_eq, hn]
      simp only [Except.bind]
      rw [he0, ht]
    · refine ⟨"<s>", ?_⟩
      rw [preprocess_eq, hserr]
      rfl
  · intro line w err h
    rw [preprocess_eq] at h
    cases h1 : listIndex w "<s>" with
    | error e1 =>
      simp only [h1, Except.bind, Except.error.injEq] at h
      subst h
      rw [listIndex_error w "<s>" e1 h1]
      rfl
    | ok n1 =>
      simp only [h1, Except.bind] at h
      cases h2 : mapExcept (listIndex w) (pySplit line) with
      | error e2 =>
        simp only [h2, Except.bind, Except.error.injEq] at h
        subst h
        obtain ⟨t, rfl⟩ := mapExcept_listIndex_error w _ e2 h2
        rfl
      | ok ids =>
        simp only [h2, Except.bind] at h
        cases h3 : listIndex w "</s>" with
        | error e3 =>
          simp only [h3, Except.bind, Except.error.injEq] at h
          subst h
          rw [listIndex_error w "</s>" e3 h3]
          rfl
        | ok n3 =>
          simp only [h3, Except.bind] at h
          exact Except.noConfusion h
  · intro st d idxs i e hi he
    have hne : ∀ b, d.getItem i ≠ Except.ok b := by
      intro b hb
      rw [he] at hb
      exact Except.noConfusion hb
    obtain ⟨e0, he0⟩ := mapExcept_error_of_mem d.getItem idxs i hi hne
    exact ⟨e0, by simp [loadBatch, he0, bind, Except.bind]⟩

/-- Witness for the amended C5 at the concrete scenario vocabulary. -/
theorem preprocess_oov_fails_and_aborts_batch_witness :
    (∃ t, preprocess "i am hungry" vocab6 = Except.error (PyErr.valueError t)) ∧
    PyErr.isLookupError (PyErr.valueError "hungry") = false ∧
    (∃ e2, loadBatch initModuleState dsOOV [0] = Except.error e2) := by
  refine ⟨?_, ?_, ?_⟩
  · refine preprocess_oov_fails_and_aborts_batch.1 vocab6 "i am hungry" "hungry"
      ?_ ?_
    · rw [show pySplit "i am hungry" = ["i", "am", "hungry"] from rfl]
      simp
    · intro n hb
      rw [show listIndex vocab6 "hungry" =
        Except.error (PyErr.valueError "hungry") from rfl] at hb
      exact Except.noConfusion hb
  · exact preprocess_oov_fails_and_aborts_batch.2.1 "i am hungry" vocab6
      (PyErr.valueError "hungry") rfl
  · exact preprocess_oov_fails_and_aborts_batch.2.2 initModuleState dsOOV [0] 0
      (PyErr.valueError "hungry") (by simp) rfl

/-! Dataset construction and the absent line-count check. -/

/-- Counterexample to C6 as stated: with one source line and zero target
lines the counts differ, yet `ParallelDataset.init` succeeds — there is
no consistency check at construction time. -/
theorem init_accepts_mismatched_line_counts :
    (["i am fine"] : List String).length ≠ ([] : List String).length ∧
    ParallelDataset.init ["i am fine"] [] vocab6 vocab6 = Except.ok dsMismatch :=
  ⟨by decide, rfl⟩

/-- C6 (amended): construction stores both line lists in memory and
performs no line-count comparison — it succeeds for any two line lists as
long as `<pad>` is in the source vocabulary, recording
`num_total_seqs = len(src_seqs)`; a shorter target file only surfaces
later, as an `IndexError` when an item beyond it is accessed. -/
theorem init_stores_lines_without_count_check
    (srcLines trgLines sw tw : List String) (p : Nat)
    (hp : listIndex sw "<pad>" = Except.ok p) :
    ParallelDataset.init srcLines trgLines sw tw =
      Except.ok { src_seqs := srcLines, trg_seqs := trgLines,
                  num_total_seqs := srcLines.length, src_word2id := sw,
                  trg_word2id := tw, pad_index := p } ∧
    (∀ i, trgLines.length ≤ i → i < srcLines.length →
      ({ src_seqs := srcLines, trg_seqs := trgLines,
         num_total_seqs := srcLines.length, src_word2id := sw,
         trg_word2id := tw, pad_index := p } : ParallelDataset).getItem i =
        Except.error (PyErr.indexError "list index out of range")) := by
  constructor
  · simp [ParallelDataset.init, hp, bind, Except.bind, pure, Except.pure]
  · intro i h1 h2
    have hsrc : listGet srcLines i = Except.ok (srcLines.get ⟨i, h2⟩) := by
      unfold listGet
      rw [List.get?_eq_get h2]
    have htrg : listGet trgLines i =
        Except.error (PyErr.indexError "list index out of range") := by
      unfold listGet
      rw [List.get?_eq_none.mpr h1]
    simp [ParallelDataset.getItem, hsrc, htrg, bind, Except.bind]

/-- Witness for the amended C6 at the concrete mismatched pair of files. -/
theorem init_stores_lines_without_count_check_witness :
    ParallelDataset.init ["i am fine"] [] vocab6 vocab6 = Except.ok dsMismatch ∧
    dsMismatch.getItem 0 =
      Except.error (PyErr.indexError "list index out of range") := by
  have h := init_stores_lines_without_count_check ["i am fine"] [] vocab6 vocab6
    0 rfl
  exact ⟨h.1, h.2 0 (by decide) (by decide)⟩

/-! The module-global pad value. -/

/-- C8: the pad value is process-global state: at import time
`PAD_WORD = -1`, and every padded grid position produced by a collate
call equals the current global; each loader factory overwrites the
global with its source vocabulary's `<pad>` index; and a factory call's
result does not depend on the previous state, so the most recent factory
call determines the fill value of all later collate calls. -/
theorem pad_word_module_global :
    initModuleState.PAD_WORD = -1 ∧
    (∀ (st : ModuleState) (data : List (List Int × List Int)) (i j : Nat),
      i < data.length →
      (collateWithState st data).1.src_lengths.getD i 0 ≤ j →
      j < (collateWithState st data).1.src_lengths.foldr max 0 →
      ((collateWithState st data).1.src_seqs.getD i []).getD j 0 = st.PAD_WORD) ∧
    (∀ (st : ModuleState) (srcLines trgLines sw tw : List String) (bs : Nat)
        (out : List (List Nat) × ParallelDataset × ModuleState),
      get_valid_parallel_loader st srcLines trgLines sw tw bs = Except.ok out →
      ∃ p, listIndex sw "<pad>" = Except.ok p ∧ out.2.2.PAD_WORD = (p : Int)) ∧
    (∀ (st : ModuleState) (srcLines trgLines sw tw : List String)
        (bs ws rk : Nat) (out : ParallelDataset × ModuleState),
      get_train_parallel_loader st srcLines trgLines sw tw bs ws rk =
        Except.ok out →
      ∃ p, listIndex sw "<pad>" = Except.ok p ∧ out.2.PAD_WORD = (p : Int)) ∧
    (∀ (st st' : ModuleState) (srcLines trgLines sw tw : List String)
        (bs ws rk : Nat),
      get_train_parallel_loader st srcLines trgLines sw tw bs ws rk =
        get_train_parallel_loader st' srcLines trgLines sw tw bs ws rk) := by
  refine ⟨rfl, ?_, ?_, ?_, ?_⟩
  · intro st data i j hi h1 h2
    have hlen := data_after_length st.PAD_WORD data
    have hi' : i <
        ((parallel_collate_fn st.PAD_WORD data).data_after.map Prod.fst).length := by
      simpa [hlen] using hi
    obtain ⟨-, -, -, -, -, -, h7⟩ := merge_side_spec st.PAD_WORD
      ((parallel_collate_fn st.PAD_WORD data).data_after.map Prod.fst) i hi'
    exact h7 j h1 h2
  · intro st srcLines trgLines sw tw bs out h
    cases hp : listIndex sw "<pad>" with
    | error e =>
      simp [get_valid_parallel_loader, ParallelDataset.init, hp, bind,
        Except.bind] at h
    | ok p =>
      simp only [get_valid_parallel_loader, ParallelDataset.init, hp, bind,
        Except.bind, pure, Except.pure, Except.ok.injEq] at h
      subst h
      exact ⟨p, rfl, rfl⟩
  · intro st srcLines trgLines sw tw bs ws rk out h
    cases hp : listIndex sw "<pad>" with
    | error e =>
      simp [get_train_parallel_loader, ParallelDataset.init, hp, bind,
        Except.bind] at h
    | ok p =>
      simp only [get_train_parallel_loader, ParallelDataset.init, hp, bind,
        Except.bind, pure, Except.pure, Except.ok.injEq] at h
      subst h
      exact ⟨p, rfl, rfl⟩
  · intro st st' srcLines trgLines sw tw bs ws rk
    rfl

/-- Witness for C8: before any factory call the padded position carries
`-1`; after the validation or training factory runs on `vocab6`, the
global holds that vocabulary's `<pad>` index `0`. -/
theorem pad_word_module_global_witness :
    ((collateWithState initModuleState dataC8).1.src_seqs.getD 1 []).getD 1 0 =
      -1 ∧
    (∃ p, listIndex vocab6 "<pad>" = Except.ok p ∧
      validOut5.2.2.PAD_WORD = (p : Int)) ∧
    (∃ p, listIndex vocab6 "<pad>" = Except.ok p ∧
      trainOut5.2.PAD_WORD = (p : Int)) := by
  refine ⟨?_, ?_, ?_⟩
  · have h := pad_word_module_global.2.1 initModuleState dataC8 1 1
      (by decide) (by decide) (by decide)
    exact h.trans pad_word_module_global.1
  · exact pad_word_module_global.2.2.1 initModuleState lines5 lines5 vocab6
      vocab6 2 validOut5 rfl
  · exact pad_word_module_global.2.2.2.1 initModuleState lines5 lines5 vocab6
      vocab6 2 1 0 trainOut5 rfl
